import Mathlib

/-!
Shallow embedding of the GitLab driver (`src/unnamed/part_000`, class `Gitlab`)
of the cml repository, together with theorems settling the frozen claims.

The driver is asynchronous JavaScript issuing HTTP calls through `node-fetch`.
We embed it as explicit state passing: every operation is a function
`Net → St → Except String α × St` where `Net` is an oracle answering the i-th
issued HTTP request, `St` carries the driver fields (`repo`, the memoized
`detectedBase`) together with the count of issued requests and a trace of
observable events (HTTP requests, filesystem downloads, chmod, process spawn).
JavaScript exceptions become `Except.error` carrying the error message
(the code only ever inspects `err.message`, so a message-string model is
faithful).  `Promise.all` over the probe array in `repoBase` starts the
fetches in array order and preserves array order in its result, so the
sequential issue order of the embedding matches the source.
-/

/-- Minimal JSON value model for response bodies.  JavaScript `undefined` and
`null` are merged into `JVal.null` (both are falsy and both make field access
yield a missing value). -/
inductive JVal where
  | null
  | bool (b : Bool)
  | num (n : Int)
  | str (s : String)
  | arr (xs : List JVal)
  | obj (fields : List (String × JVal))
deriving Repr, Inhabited

/-- Property access `j.k`: looks a key up in an object, `undefined` (here
`.null`) otherwise. -/
def JVal.get (j : JVal) (k : String) : JVal :=
  match j with
  | .obj fields =>
    match fields.find? (fun p => p.1 == k) with
    | some p => p.2
    | none => .null
  | _ => .null

/-- JavaScript truthiness of a value (objects and arrays are truthy, `null`
and `undefined`, `false`, `0` and the empty string are falsy). -/
def JVal.truthy : JVal → Bool
  | .null => false
  | .bool b => b
  | .num n => n != 0
  | .str s => s != ""
  | .arr _ => true
  | .obj _ => true

/-- Strict equality of a value against a string literal, as in
`pr.state === 'opened'`. -/
def JVal.isStr (j : JVal) (s : String) : Bool :=
  match j with
  | .str t => t == s
  | _ => false

/-- String interpolation `${v}` of a value into a template literal, and the
stringification performed by `URLSearchParams.append`/`set`.  (Only strings
and numbers occur in the modeled flows.) -/
def jvalTemplate : JVal → String
  | .str s => s
  | .num n => toString n
  | .bool b => if b then "true" else "false"
  | .null => "null"
  | .arr _ => ""
  | .obj _ => "[object Object]"

/-- One HTTP request as issued through `fetch`: target URL, method and the
form-encoded body entries (`URLSearchParams`).  The constant
`PRIVATE-TOKEN`/`Accept` headers carry no information and are omitted. -/
structure Req where
  url : String
  method : String
  body : List (String × String)
deriving Repr, DecidableEq

/-- The envelope `fetch` resolves with: status, statusText and the value that
`response.json()` would produce. -/
structure HttpResp where
  status : Nat
  statusText : String
  jsonBody : JVal
deriving Repr, Inhabited

/-- Observable events of one driver session. -/
inductive Event where
  | net (req : Req)
  | download (url : String) (path : String)
  | chmod (path : String)
  | spawn (cmd : String)
deriving Repr

/-- Network oracle: the response (or network-level rejection) to the i-th
issued request.  Indexing by issue count lets distinct attempts at the same
request differ. -/
def Net : Type := Nat → Req → Except String HttpResp

/-- Driver/session state: the constructor-set fields of the `Gitlab` object
(`repo`, `token`), the memoized `detectedBase`, plus the instrumentation
(number of issued requests and the event trace). -/
structure St where
  repo : String
  token : String
  detectedBase : Option String
  calls : Nat
  trace : List Event
deriving Repr

/-- An asynchronous driver computation: crashes are `Except.error` with the
error message, and the state threads through even on failure (JavaScript
field assignments survive a later `throw`). -/
def M (α : Type) : Type := Net → St → Except String α × St

/-- JavaScript truthiness of `this.detectedBase` (an optional string). -/
def truthyOptStr : Option String → Bool
  | some s => s != ""
  | none => false

/-- `Array.prototype.join('/')`. -/
def joinSlash : List String → String
  | [] => ""
  | a :: as => as.foldl (fun acc x => acc ++ "/" ++ x) a

/-- Components of `new URL(s)` used by the driver: scheme, host and pathname.
`origin` is `scheme ++ "://" ++ host` and `protocol` is `scheme ++ ":"`.
Ports, userinfo, query strings and normalization are outside the modeled
input space; a string without a scheme separator is a `TypeError` of the URL
constructor. -/
structure UrlParts where
  scheme : String
  host : String
  pathname : String
deriving Repr, DecidableEq

/-- `String.prototype.split` with a one-character separator: split at every
occurrence, keeping empty pieces (structurally recursive so that concrete
runs reduce inside the kernel). -/
def splitCharList (sep : Char) : List Char → List (List Char)
  | [] => [[]]
  | c :: cs =>
    if c == sep then [] :: splitCharList sep cs
    else
      match splitCharList sep cs with
      | [] => [[c]]
      | r :: rs => (c :: r) :: rs

/-- `s.split(sep)` for a one-character separator. -/
def splitChar (sep : Char) (s : String) : List String :=
  (splitCharList sep s.data).map (fun l => String.mk l)

/-- Split a character list at the first scheme separator, yielding the
characters before it and after it. -/
def splitSchemeList : List Char → Option (List Char × List Char)
  | [] => none
  | ':' :: '/' :: '/' :: rest => some ([], rest)
  | c :: cs =>
    match splitSchemeList cs with
    | some (scheme, rest) => some (c :: scheme, rest)
    | none => none

/-- Parse `new URL(s)` far enough for `origin`, `pathname`, `protocol`,
`host`.  `new URL("https://h")` has pathname `"/"`. -/
def parseURL (s : String) : Option UrlParts :=
  match splitSchemeList s.data with
  | some (schemeL, restL) =>
    if schemeL = [] then none
    else
      match splitCharList '/' restL with
      | hostL :: pathPartsL =>
        if hostL = [] then none
        else some ⟨String.mk schemeL, String.mk hostL,
          "/" ++ joinSlash (pathPartsL.map (fun l => String.mk l))⟩
      | [] => none
  | none => none

def UrlParts.origin (u : UrlParts) : String := u.scheme ++ "://" ++ u.host

/-- `API_VER` constant of the source. -/
def API_VER : String := "v4"

/-- The core of `Gitlab.request` once the target URL is known: issue the
fetch, record it, fail with `statusText` when `response.status > 300`,
otherwise hand back the parsed JSON body.  (The `raw` mode, used only by
`unregisterRunner`, returns the unparsed envelope and is not needed by any
modeled operation.) -/
def requestUrl (url method : String) (body : List (String × String)) : M JVal :=
  fun net s =>
    let req : Req := ⟨url, method, body⟩
    let s1 : St := { s with calls := s.calls + 1, trace := s.trace ++ [Event.net req] }
    match net s.calls req with
    | .error e => (.error e, s1)
    | .ok resp =>
      if resp.status > 300 then (.error resp.statusText, s1)
      else (.ok resp.jsonBody, s1)

/-- Outcome of one candidate probe inside `repoBase`'s mapped closure:
the candidate path when the version payload is truthy, the caught error
when the request threw, and `undefined` when the request succeeded without a
truthy `version` field. -/
inductive ProbeResult where
  | found (path : String)
  | errored (msg : String)
  | nothing
deriving Repr, DecidableEq

/-- The version-probe request `GET path/api/v4/version` for a candidate. -/
def probeReq (path : String) : Req :=
  ⟨path ++ "/api/" ++ API_VER ++ "/version", "GET", []⟩

/-- One iteration of `repoBase`'s probe map:
`try { if ((await this.request({url})).version) return path } catch (e) { return e }`. -/
def probeOne (path : String) : M ProbeResult := fun net s =>
  match requestUrl (path ++ "/api/" ++ API_VER ++ "/version") "GET" [] net s with
  | (.ok j, s1) =>
    if (j.get "version").truthy then (.ok (.found path), s1) else (.ok .nothing, s1)
  | (.error e, s1) => (.ok (.errored e), s1)

/-- The `Promise.all` over all candidate probes, in array order. -/
def probeAll : List String → M (List ProbeResult)
  | [] => fun _ s => (.ok [], s)
  | c :: cs => fun net s =>
    match probeOne c net s with
    | (.ok r, s1) =>
      match probeAll cs net s1 with
      | (.ok rs, s2) => (.ok (r :: rs), s2)
      | (.error e, s2) => (.error e, s2)
    | (.error e, s1) => (.error e, s1)

/-- The candidate roots `[origin, ...segments.slice(0, index)].join('/')` for
`index` ranging over the segment array's indices (so the full segment list is
never joined into a candidate). -/
def joinCandidates (origin : String) (segs : List String) : List String :=
  (List.range segs.length).map (fun i => joinSlash (origin :: segs.take i))

/-- `possibleBases.find((base) => typeof base === 'string')`: the first probe
outcome that returned the candidate path. -/
def firstFound : List ProbeResult → Option String
  | [] => none
  | .found p :: _ => some p
  | .errored _ :: rest => firstFound rest
  | .nothing :: rest => firstFound rest

/-- `Gitlab.repoBase` past the memoization check: parse the repository URL,
build the candidate roots, probe them all, memoize and return the first
string, otherwise rethrow the first entry (an error object, or `undefined`
when the first probe resolved without a truthy version) or fail with
`Invalid repository address` when there were no candidates. -/
def repoBaseCore : M String := fun net s =>
  match parseURL s.repo with
  | none => (.error "Invalid URL", s)
  | some parts =>
    let segs := (splitChar '/' parts.pathname).filter (fun x => x != "")
    let cands := joinCandidates parts.origin segs
    match probeAll cands net s with
    | (.error e, s1) => (.error e, s1)
    | (.ok results, s1) =>
      match firstFound results with
      | some b => (.ok b, { s1 with detectedBase := some b })
      | none =>
        let s2 : St := { s1 with detectedBase := none }
        if results.length != 0 then
          match results.head? with
          | some (ProbeResult.errored e) => (.error e, s2)
          | _ => (.error "undefined", s2)
        else (.error "Invalid repository address", s2)

/-- `Gitlab.repoBase`: `if (this.detectedBase) return this.detectedBase;`
then the probing core. -/
def repoBase : M String := fun net s =>
  match s.detectedBase with
  | some b => if b != "" then (.ok b, s) else repoBaseCore net s
  | none => repoBaseCore net s

/-- `Gitlab.request` when called with an `endpoint` (not a raw `url`):
resolve the base, then fetch `base/api/v4 ++ endpoint`. -/
def requestEndpoint (endpoint method : String) (body : List (String × String)) :
    M JVal := fun net s =>
  match repoBase net s with
  | (.error e, s1) => (.error e, s1)
  | (.ok base, s1) => requestUrl (base ++ "/api/" ++ API_VER ++ endpoint) method body net s1

/-- One hexadecimal digit (uppercase, as produced by `encodeURIComponent`). -/
def hexDigit (n : Nat) : Char :=
  if n < 10 then Char.ofNat (48 + n) else Char.ofNat (55 + n)

/-- Characters `encodeURIComponent` leaves unescaped
(`A-Z a-z 0-9 - _ . ! ~ * ' ( )`). -/
def uriUnreserved (c : Char) : Bool :=
  c.isAlphanum || ['-', '_', '.', '!', '~', '*', '(', ')'].contains c
    || c == Char.ofNat 39

/-- Percent-encoding of one character (the modeled inputs are ASCII, one byte
per character). -/
def encodeChar (c : Char) : String :=
  if uriUnreserved c then String.singleton c
  else
    "%" ++ String.singleton (hexDigit (c.toNat / 16))
      ++ String.singleton (hexDigit (c.toNat % 16))

/-- `encodeURIComponent`. -/
def encodeURIComponent (s : String) : String :=
  String.join (s.data.map encodeChar)

/-- `String.prototype.replace` with a string pattern and empty replacement:
remove the first occurrence of `pat` (no occurrence leaves `s` unchanged; the
empty pattern matches at position 0, leaving `s` unchanged too). -/
def replaceFirstList (pat : List Char) : List Char → List Char
  | [] => []
  | c :: rest =>
    if pat.isPrefixOf (c :: rest) then (c :: rest).drop pat.length
    else c :: replaceFirstList pat rest

/-- `s.replace(pat, '')` for string `pat`. -/
def replaceFirst (s pat : String) : String :=
  String.mk (replaceFirstList pat.data s.data)

/-- `Gitlab.projectPath`:
`encodeURIComponent(this.repo.replace(repoBase, '').substr(1))`. -/
def projectPath : M String := fun net s =>
  match repoBase net s with
  | (.error e, s1) => (.error e, s1)
  | (.ok base, s1) =>
    (.ok (encodeURIComponent ((replaceFirst s1.repo base).drop 1)), s1)

/-- The common PR/MR projection `{url, source, target}` taken from a raw
merge-request entry by destructuring `web_url`, `source_branch`,
`target_branch`. -/
structure PrOut where
  url : JVal
  source : JVal
  target : JVal
deriving Repr

def toPrOut (pr : JVal) : PrOut :=
  ⟨pr.get "web_url", pr.get "source_branch", pr.get "target_branch"⟩

/-- `Gitlab.commentCreate`: POST the note, then return the locally composed
commit URL (repo, a fixed infix, the SHA); the response body is awaited only
for its success or failure. -/
def commentCreate (commitSha report : String) : M String := fun net s =>
  match projectPath net s with
  | (.error e, s1) => (.error e, s1)
  | (.ok pp, s1) =>
    let endpoint := "/projects/" ++ pp ++ "/repository/commits/" ++ commitSha ++ "/comments"
    match requestEndpoint endpoint "POST" [("note", report)] net s1 with
    | (.error e, s2) => (.error e, s2)
    | (.ok _, s2) => (.ok (s2.repo ++ "/-/commit/" ++ commitSha), s2)

/-- `Gitlab.commitPrs`: fetch the commit's merge requests, keep those with
`state === 'opened'`, project each to `{url, source, target}`.  A non-array
response would be a runtime `TypeError` at the `.filter` call. -/
def commitPrs (commitSha : String) : M (List PrOut) := fun net s =>
  match projectPath net s with
  | (.error e, s1) => (.error e, s1)
  | (.ok pp, s1) =>
    let endpoint := "/projects/" ++ pp ++ "/repository/commits/" ++ commitSha ++ "/merge_requests"
    match requestEndpoint endpoint "GET" [] net s1 with
    | (.error e, s2) => (.error e, s2)
    | (.ok j, s2) =>
      match j with
      | .arr xs =>
        (.ok ((xs.filter (fun pr => (pr.get "state").isStr "opened")).map toPrOut), s2)
      | _ => (.error "TypeError: prs.filter is not a function", s2)

/-- `Gitlab.prs`: fetch `merge_requests?state=<state>` (default `opened`) and
project every entry of the response — no client-side filtering. -/
def prs (state : String) : M (List PrOut) := fun net s =>
  match projectPath net s with
  | (.error e, s1) => (.error e, s1)
  | (.ok pp, s1) =>
    let endpoint := "/projects/" ++ pp ++ "/merge_requests?state=" ++ state
    match requestEndpoint endpoint "GET" [] net s1 with
    | (.error e, s2) => (.error e, s2)
    | (.ok j, s2) =>
      match j with
      | .arr xs => (.ok (xs.map toPrOut), s2)
      | _ => (.error "TypeError: prs.map is not a function", s2)

/-- `URLSearchParams.set`: replace the first entry with the key (dropping any
later duplicates), or append when absent. -/
def setParam : List (String × String) → String → String → List (String × String)
  | [], k, v => [(k, v)]
  | (k0, v0) :: rest, k, v =>
    if k0 == k then (k, v) :: rest.filter (fun p => p.1 != k)
    else (k0, v0) :: setParam rest k v

/-- `backOff(fn)` from the `exponential-backoff` package with its defaults:
up to `n` attempts (default `numOfAttempts = 10`), rethrowing the last
attempt's error; the delays between attempts are irrelevant to this model. -/
def backOffRun (fn : M JVal) : Nat → M JVal
  | 0 => fn
  | 1 => fn
  | n + 2 => fun net s =>
    match fn net s with
    | (.ok v, s1) => (.ok v, s1)
    | (.error _, s1) => backOffRun fn (n + 1) net s1

/-- `Gitlab.prAutoMerge`: refuse `rebase`, then PUT the gated merge
(`merge_when_pipeline_succeeds=true`) under `backOff`; if every attempt
fails, warn and fire one unconditional merge PUT
(`merge_when_pipeline_succeeds=false`) without awaiting it and without
propagating its failure. -/
def prAutoMerge (pullRequestId mergeMode : String) (mergeMessage : Option String) :
    M Unit := fun net s =>
  if mergeMode == "rebase" then
    (.error "Rebase auto-merge mode not implemented for GitLab", s)
  else
    match projectPath net s with
    | (.error e, s1) => (.error e, s1)
    | (.ok pp, s1) =>
      let endpoint := "/projects/" ++ pp ++ "/merge_requests/" ++ pullRequestId ++ "/merge"
      let body0 := setParam [] "merge_when_pipeline_succeeds" "true"
      let body1 := setParam body0 "squash" (if mergeMode == "squash" then "true" else "false")
      let body2 :=
        match mergeMessage with
        | some m => setParam body1 (mergeMode ++ "_commit_message") m
        | none => body1
      match backOffRun (requestEndpoint endpoint "PUT" body2) 10 net s1 with
      | (.ok _, s2) => (.ok (), s2)
      | (.error _, s2) =>
        let body3 := setParam body2 "merge_when_pipeline_succeeds" "false"
        match requestEndpoint endpoint "PUT" body3 net s2 with
        | (_, s3) => (.ok (), s3)

/-- Rendering of an optional id into a template literal (`undefined`
interpolates as the string `undefined`). -/
def renderOpt : Option String → String
  | some s => s
  | none => "undefined"

/-- The tail of `Gitlab.pipelineRerun` once the project path and the
pipeline id are known: fetch the pipeline's status, cancel only when the
status is `running`, then retry. -/
def pipelineRerunWithId (pp id : String) : M Unit := fun net s =>
  match requestEndpoint ("/projects/" ++ pp ++ "/pipelines/" ++ id) "GET" [] net s with
  | (.error e, s3) => (.error e, s3)
  | (.ok st, s3) =>
    let cancelStep : Except String Unit × St :=
      if (st.get "status").isStr "running" then
        match requestEndpoint ("/projects/" ++ pp ++ "/pipelines/" ++ id ++ "/cancel") "POST" [] net s3 with
        | (.error e, s4) => (.error e, s4)
        | (.ok _, s4) => (.ok (), s4)
      else (.ok (), s3)
    match cancelStep with
    | (.error e, s4) => (.error e, s4)
    | (.ok _, s4) =>
      match requestEndpoint ("/projects/" ++ pp ++ "/pipelines/" ++ id ++ "/retry") "POST" [] net s4 with
      | (.error e, s5) => (.error e, s5)
      | (.ok _, s5) => (.ok (), s5)

/-- `Gitlab.pipelineRerun({id = CI_PIPELINE_ID, jobId})`: when `id` is falsy
and `jobId` truthy, resolve the job's parent pipeline id; fetch the
pipeline's status; cancel only when the status is `running`; then retry. -/
def pipelineRerun (idOpt jobId : Option String) : M Unit := fun net s =>
  match projectPath net s with
  | (.error e, s1) => (.error e, s1)
  | (.ok pp, s1) =>
    let step2 : Except String String × St :=
      if !truthyOptStr idOpt && truthyOptStr jobId then
        match requestEndpoint ("/projects/" ++ pp ++ "/jobs/" ++ renderOpt jobId) "GET" [] net s1 with
        | (.error e, s2) => (.error e, s2)
        | (.ok r, s2) =>
          match r.get "pipeline" with
          | JVal.null => (.error "TypeError: cannot destructure pipeline", s2)
          | p => (.ok (jvalTemplate (p.get "id")), s2)
      else (.ok (renderOpt idOpt), s1)
    match step2 with
    | (.error e, s2) => (.error e, s2)
    | (.ok id, s2) => pipelineRerunWithId pp id net s2

/-- `Gitlab.runnerToken`: GET the project and destructure `runners_token`. -/
def runnerToken : M JVal := fun net s =>
  match projectPath net s with
  | (.error e, s1) => (.error e, s1)
  | (.ok pp, s1) =>
    match requestEndpoint ("/projects/" ++ pp) "GET" [] net s1 with
    | (.error e, s2) => (.error e, s2)
    | (.ok j, s2) => (.ok (j.get "runners_token"), s2)

/-- `Gitlab.registerRunner`: POST `/runners` with the project's runner token
and the fixed registration fields. -/
def registerRunner (tags name : String) : M JVal := fun net s =>
  match runnerToken net s with
  | (.error e, s1) => (.error e, s1)
  | (.ok tok, s1) =>
    let body := [("description", name), ("tag_list", tags),
      ("token", jvalTemplate tok), ("locked", "true"),
      ("run_untagged", "true"), ("access_level", "not_protected")]
    requestEndpoint "/runners" "POST" body net s1

/-- Filesystem/host environment of `startRunner`: GPU presence (the `utils`
helper `gpuPresent` probes `nvidia-smi` and catches its own failures, so it
is an infallible boolean), whether the runner binary already exists at the
working directory, whether the platform is darwin, the in-container flag,
and the outcomes of the download and chmod steps. -/
structure FsEnv where
  gpu : Bool
  binExists : Bool
  platformDarwin : Bool
  inDocker : Bool
  downloadResult : Except String Unit
  chmodResult : Except String Unit
deriving Repr

/-- The S3 location of the runner binary for an architecture name. -/
def runnerDownloadUrl (arch : String) : String :=
  "https://gitlab-runner-downloads.s3.amazonaws.com/latest/binaries/gitlab-runner-"
    ++ arch ++ "-amd64"

/-- The launch command composed by `startRunner` (template-literal whitespace
normalized to single spaces). -/
def startRunnerCommand (bin workdir protocol host name token idleTimeout : String)
    (inDocker gpu : Bool) (dockerVolumesTpl : String) (single : Bool) : String :=
  bin ++ " --log-format=json run-single --builds-dir " ++ workdir
    ++ " --cache-dir " ++ workdir
    ++ " --url " ++ protocol ++ "//" ++ host
    ++ " --name " ++ name
    ++ " --token " ++ token
    ++ " --wait-timeout " ++ idleTimeout
    ++ " --executor " ++ (if inDocker then "shell" else "docker")
    ++ " --docker-image iterativeai/cml:" ++ (if gpu then "latest-gpu" else "latest")
    ++ " " ++ (if gpu then "--docker-runtime nvidia" else "")
    ++ " " ++ dockerVolumesTpl
    ++ " " ++ (if single then "--max-builds 1" else "")

/-- The `try` block of `Gitlab.startRunner`: provision the binary when
absent (download then chmod), register a runner, compose the launch command
and spawn it, returning the handle (modeled by the spawned command). -/
def startRunnerInner (env : FsEnv) (workdir idleTimeout name labels : String)
    (single : Bool) (dockerVolumes : List String) : M String := fun net s =>
  let bin := workdir ++ "/gitlab-runner"
  let step1 : Except String Unit × St :=
    if env.binExists then (.ok (), s)
    else
      let arch := if env.platformDarwin then "darwin" else "linux"
      let s1 : St := { s with trace := s.trace ++ [Event.download (runnerDownloadUrl arch) bin] }
      match env.downloadResult with
      | .error e => (.error e, s1)
      | .ok _ =>
        let s2 : St := { s1 with trace := s1.trace ++ [Event.chmod bin] }
        match env.chmodResult with
        | .error e => (.error e, s2)
        | .ok _ => (.ok (), s2)
  match step1 with
  | (.error e, s1) => (.error e, s1)
  | (.ok _, s1) =>
    match parseURL s1.repo with
    | none => (.error "Invalid URL", s1)
    | some parts =>
      match registerRunner labels name net s1 with
      | (.error e, s2) => (.error e, s2)
      | (.ok reg, s2) =>
        let volsTpl := dockerVolumes.foldl (fun acc vol => acc ++ "--docker-volumes " ++ vol ++ " ") ""
        let cmd := startRunnerCommand bin workdir (parts.scheme ++ ":") parts.host
          name (jvalTemplate (reg.get "token")) idleTimeout env.inDocker env.gpu volsTpl single
        (.ok cmd, { s2 with trace := s2.trace ++ [Event.spawn cmd] })

/-- `Gitlab.startRunner`: run the setup, and wrap any failure as
`Failed preparing Gitlab runner: <message>`, first extending a bare
`Forbidden` with the token-permission hint. -/
def startRunner (env : FsEnv) (workdir idleTimeout name labels : String)
    (single : Bool) (dockerVolumes : List String) : M String := fun net s =>
  match startRunnerInner env workdir idleTimeout name labels single dockerVolumes net s with
  | (.ok h, s1) => (.ok h, s1)
  | (.error e, s1) =>
    let e2 :=
      if e == "Forbidden" then
        e ++ ", check the permissions (scopes) of your GitLab token.\nSee https://cml.dev/doc/self-hosted-runners?tab=GitLab#personal-access-token"
      else e
    (.error ("Failed preparing Gitlab runner: " ++ e2), s1)

/-- Modelled from the spec: candidate roots for every prefix of the segment
list, the full list included — the spec's §4.1 reading of the resolver
(`for every prefix of that segment list`), used only to compare the source
against the spec's words. -/
def specCandidatesAllPrefixes (origin : String) (segs : List String) : List String :=
  (List.range (segs.length + 1)).map (fun i => joinSlash (origin :: segs.take i))

/-- Modelled from the spec: selection rule with candidates tried from
longest to shortest and the first success winning, given a pure success
predicate for each candidate root. -/
def specSelectLongestFirst (cands : List String) (ok : String → Bool) : Option String :=
  cands.reverse.find? ok

/-- Modelled from the spec: the §4.1/§7 `ResolutionError` wrapping of a
failed resolution — a contextual wrapper around the underlying probe error,
distinct from the raw error it wraps. -/
def specWrapResolution (e : String) : String := "ResolutionError: " ++ e

/-- The request `Gitlab.request` issues for `endpoint` once the base is `b`. -/
def endpointReq (b endpoint method : String) (body : List (String × String)) : Req :=
  ⟨b ++ "/api/" ++ API_VER ++ endpoint, method, body⟩

/-- The project path computed by `projectPath` when the base is already
resolved to `base`. -/
def cachedProjectPath (repo base : String) : String :=
  encodeURIComponent ((replaceFirst repo base).drop 1)

theorem repoBase_cached (net : Net) (s : St) (b : String)
    (hb : s.detectedBase = some b) (hbne : b ≠ "") :
    repoBase net s = (.ok b, s) := by
  unfold repoBase
  rw [hb]
  simp [hbne]

theorem projectPath_cached (net : Net) (s : St) (b : String)
    (hb : s.detectedBase = some b) (hbne : b ≠ "") :
    projectPath net s = (.ok (cachedProjectPath s.repo b), s) := by
  unfold projectPath
  rw [repoBase_cached net s b hb hbne]
  rfl

theorem requestEndpoint_cached (endpoint method : String) (body : List (String × String))
    (net : Net) (s : St) (b : String)
    (hb : s.detectedBase = some b) (hbne : b ≠ "") :
    requestEndpoint endpoint method body net s =
      requestUrl (b ++ "/api/" ++ API_VER ++ endpoint) method body net s := by
  unfold requestEndpoint
  rw [repoBase_cached net s b hb hbne]

/-- Pure description of the outcome of the probe issued as the `k`-th request
of the session. -/
def pureProbe (net : Net) (k : Nat) (c : String) : ProbeResult :=
  match net k (probeReq c) with
  | .error e => .errored e
  | .ok resp =>
    if resp.status > 300 then .errored resp.statusText
    else if (resp.jsonBody.get "version").truthy then .found c
    else .nothing

/-- Pure description of the probe outcomes of a candidate list issued
sequentially starting at request index `k`. -/
def pureProbes (net : Net) : Nat → List String → List ProbeResult
  | _, [] => []
  | k, c :: cs => pureProbe net k c :: pureProbes net (k + 1) cs

theorem probeOne_eq (c : String) (net : Net) (s : St) :
    probeOne c net s = (.ok (pureProbe net s.calls c),
      { s with calls := s.calls + 1, trace := s.trace ++ [Event.net (probeReq c)] }) := by
  unfold probeOne requestUrl pureProbe probeReq
  cases h : net s.calls ⟨c ++ "/api/" ++ API_VER ++ "/version", "GET", []⟩ with
  | error e => simp [h]
  | ok resp =>
    by_cases hs : resp.status > 300
    · simp [h, hs]
    · by_cases hv : (resp.jsonBody.get "version").truthy <;> simp [h, hs, hv]

theorem probeAll_eq (net : Net) (cs : List String) : ∀ (s : St),
    probeAll cs net s = (.ok (pureProbes net s.calls cs),
      { s with calls := s.calls + cs.length,
               trace := s.trace ++ cs.map (fun c => Event.net (probeReq c)) }) := by
  induction cs with
  | nil => intro s; simp [probeAll, pureProbes]
  | cons c cs ih =>
    intro s
    simp only [probeAll, probeOne_eq, ih]
    simp [pureProbes, St.mk.injEq, Prod.mk.injEq, List.append_assoc]
    omega

/-- Whether a probe outcome is a found candidate (a string entry in the
JavaScript array). -/
def isFound : ProbeResult → Bool
  | .found _ => true
  | _ => false

theorem pureProbe_found (net : Net) (k : Nat) (c p : String)
    (h : pureProbe net k c = .found p) : p = c := by
  unfold pureProbe at h
  split at h
  · exact absurd h (by simp)
  · split at h
    · exact absurd h (by simp)
    · split at h
      · cases h; rfl
      · exact absurd h (by simp)

theorem pureProbes_length (net : Net) : ∀ (k : Nat) (cs : List String),
    (pureProbes net k cs).length = cs.length := by
  intro k cs
  induction cs generalizing k with
  | nil => rfl
  | cons c cs ih => simp [pureProbes, ih]

theorem pureProbes_getD (net : Net) : ∀ (cs : List String) (k i : Nat), i < cs.length →
    (pureProbes net k cs).getD i ProbeResult.nothing = pureProbe net (k + i) (cs.getD i "") := by
  intro cs
  induction cs with
  | nil => intro k i hi; simp at hi
  | cons c cs ih =>
    intro k i hi
    cases i with
    | zero => rfl
    | succ j =>
      have := ih (k + 1) j (by simpa using Nat.lt_of_succ_lt_succ hi)
      simpa [pureProbes, Nat.add_assoc, Nat.add_comm 1 j] using this

theorem pureProbes_found_mem (net : Net) : ∀ (cs : List String) (k : Nat) (p : String),
    ProbeResult.found p ∈ pureProbes net k cs → p ∈ cs := by
  intro cs
  induction cs with
  | nil => intro k p h; simp [pureProbes] at h
  | cons c cs ih =>
    intro k p h
    simp only [pureProbes, List.mem_cons] at h
    rcases h with h | h
    · exact (pureProbe_found net k c p h.symm) ▸ List.mem_cons_self c cs
    · exact List.mem_cons_of_mem c (ih (k + 1) p h)

theorem firstFound_of_min : ∀ (l : List ProbeResult) (i : Nat) (p : String),
    l.getD i ProbeResult.nothing = ProbeResult.found p →
    (∀ j, j < i → isFound (l.getD j ProbeResult.nothing) = false) →
    firstFound l = some p := by
  intro l
  induction l with
  | nil => intro i p h _; simp [List.getD] at h
  | cons r rest ih =>
    intro i p h hmin
    cases i with
    | zero =>
      simp only [List.getD_cons_zero] at h
      subst h
      rfl
    | succ j =>
      have hr : isFound r = false := hmin 0 (Nat.succ_pos j)
      have hrec : firstFound rest = some p := by
        apply ih j p
        · simpa using h
        · intro j2 hj2
          have := hmin (j2 + 1) (Nat.succ_lt_succ hj2)
          simpa using this
      cases r with
      | found q => simp [isFound] at hr
      | errored m => simpa [firstFound] using hrec
      | nothing => simpa [firstFound] using hrec

theorem firstFound_none : ∀ (l : List ProbeResult),
    (∀ r ∈ l, isFound r = false) → firstFound l = none := by
  intro l
  induction l with
  | nil => intro _; rfl
  | cons r rest ih =>
    intro h
    have hr := h r (List.mem_cons_self r rest)
    have hrest := ih (fun x hx => h x (List.mem_cons_of_mem r hx))
    cases r with
    | found q => simp [isFound] at hr
    | errored m => simpa [firstFound] using hrest
    | nothing => simpa [firstFound] using hrest

theorem firstFound_mem : ∀ (l : List ProbeResult) (p : String),
    firstFound l = some p → ProbeResult.found p ∈ l := by
  intro l
  induction l with
  | nil => intro p h; simp [firstFound] at h
  | cons r rest ih =>
    intro p h
    cases r with
    | found q =>
      simp only [firstFound, Option.some.injEq] at h
      subst h
      exact List.mem_cons_self _ _
    | errored m => exact List.mem_cons_of_mem _ (ih p (by simpa [firstFound] using h))
    | nothing => exact List.mem_cons_of_mem _ (ih p (by simpa [firstFound] using h))

/-- The candidate roots `repoBase` derives from parsed URL components. -/
def repoCandidates (parts : UrlParts) : List String :=
  joinCandidates parts.origin ((splitChar '/' parts.pathname).filter (fun x => x != ""))

theorem repoBase_fresh (net : Net) (s : St)
    (h : truthyOptStr s.detectedBase = false) :
    repoBase net s = repoBaseCore net s := by
  unfold repoBase
  cases hd : s.detectedBase with
  | none => rfl
  | some b =>
    rw [hd] at h
    simp only [truthyOptStr] at h
    simp [h]

theorem repoBaseCore_found (net : Net) (s : St) (parts : UrlParts) (b : String)
    (hparse : parseURL s.repo = some parts)
    (hfound : firstFound (pureProbes net s.calls (repoCandidates parts)) = some b) :
    repoBaseCore net s = (.ok b,
      { s with detectedBase := some b,
               calls := s.calls + (repoCandidates parts).length,
               trace := s.trace ++ (repoCandidates parts).map (fun c => Event.net (probeReq c)) }) := by
  unfold repoBaseCore
  rw [hparse]
  simp only [probeAll_eq]
  rw [show joinCandidates parts.origin ((splitChar '/' parts.pathname).filter (fun x => x != "")) = repoCandidates parts from rfl]
  rw [hfound]

theorem repoBaseCore_allErrored (net : Net) (s : St) (parts : UrlParts)
    (e0 : String) (rest : List ProbeResult)
    (hparse : parseURL s.repo = some parts)
    (hres : pureProbes net s.calls (repoCandidates parts) = ProbeResult.errored e0 :: rest)
    (hnone : ∀ r ∈ pureProbes net s.calls (repoCandidates parts), isFound r = false) :
    repoBaseCore net s = (.error e0,
      { s with detectedBase := none,
               calls := s.calls + (repoCandidates parts).length,
               trace := s.trace ++ (repoCandidates parts).map (fun c => Event.net (probeReq c)) }) := by
  unfold repoBaseCore
  rw [hparse]
  simp only [probeAll_eq]
  rw [show joinCandidates parts.origin ((splitChar '/' parts.pathname).filter (fun x => x != "")) = repoCandidates parts from rfl]
  rw [firstFound_none _ hnone, hres]
  rfl

theorem repoBaseCore_noCandidates (net : Net) (s : St) (parts : UrlParts)
    (hparse : parseURL s.repo = some parts)
    (hempty : repoCandidates parts = []) :
    repoBaseCore net s = (.error "Invalid repository address",
      { s with detectedBase := none }) := by
  unfold repoBaseCore
  rw [hparse]
  simp only [probeAll_eq]
  rw [show joinCandidates parts.origin ((splitChar '/' parts.pathname).filter (fun x => x != "")) = repoCandidates parts from rfl]
  rw [hempty]
  simp [pureProbes, firstFound]

theorem foldl_slash_length (as : List String) : ∀ acc : String,
    acc.length ≤ (as.foldl (fun a x => a ++ "/" ++ x) acc).length := by
  induction as with
  | nil => intro acc; exact Nat.le_refl _
  | cons a as ih =>
    intro acc
    calc acc.length ≤ (acc ++ "/" ++ a).length := by
          simp [String.length_append]; omega
      _ ≤ _ := ih (acc ++ "/" ++ a)

theorem joinSlash_cons_length (a : String) (l : List String) :
    a.length ≤ (joinSlash (a :: l)).length :=
  foldl_slash_length l a

theorem origin_length (u : UrlParts) : 3 ≤ u.origin.length := by
  have h3 : ("://" : String).length = 3 := rfl
  simp [UrlParts.origin, String.length_append, h3]
  omega

theorem repoCandidates_ne_empty (parts : UrlParts) (c : String)
    (hc : c ∈ repoCandidates parts) : c ≠ "" := by
  unfold repoCandidates joinCandidates at hc
  rcases List.mem_map.mp hc with ⟨i, _, hji⟩
  intro h0
  subst hji
  have h1 := joinSlash_cons_length parts.origin
    (((splitChar '/' parts.pathname).filter (fun x => x != "")).take i)
  have h2 := origin_length parts
  rw [h0] at h1
  simp at h1
  omega

/-- Claim C7: calling `prAutoMerge` with merge mode `rebase` fails with the
unsupported-operation error (`Rebase auto-merge mode not implemented for
GitLab`) and performs zero network calls: the state, including the request
count and the event trace, is returned unchanged. -/
theorem claim_C7_rebase_unsupported (pullRequestId : String)
    (mergeMessage : Option String) (net : Net) (s : St) :
    prAutoMerge pullRequestId "rebase" mergeMessage net s =
      (.error "Rebase auto-merge mode not implemented for GitLab", s) := rfl

/-- Claim C3 (amended): a request through the client fails exactly when the
response status is strictly greater than 300 — not at least 300: status 300
itself is accepted — failing with the response's status text, and returns
the parsed JSON body otherwise; either way exactly one request is issued. -/
theorem claim_C3_request_failure_threshold (url method : String)
    (body : List (String × String)) (net : Net) (s : St) (resp : HttpResp)
    (h : net s.calls ⟨url, method, body⟩ = .ok resp) :
    (resp.status > 300 → requestUrl url method body net s =
      (.error resp.statusText,
        { s with calls := s.calls + 1, trace := s.trace ++ [Event.net ⟨url, method, body⟩] }))
    ∧ (resp.status ≤ 300 → requestUrl url method body net s =
      (.ok resp.jsonBody,
        { s with calls := s.calls + 1, trace := s.trace ++ [Event.net ⟨url, method, body⟩] })) := by
  constructor
  · intro hgt
    simp [requestUrl, h, hgt]
  · intro hle
    simp [requestUrl, h, Nat.not_lt.mpr hle]

/-- Shared concrete driver state with an already-resolved base. -/
def fixSt : St := ⟨"https://h/g/p", "tok", some "https://h", 0, []⟩

/-- Oracle answering every request with a 404. -/
def fixNet404 : Net := fun _ _ => .ok ⟨404, "Not Found", JVal.null⟩

/-- Oracle answering every request with status exactly 300 and a parseable
body. -/
def fixNet300 : Net := fun _ _ => .ok ⟨300, "Multiple Choices", JVal.str "hi"⟩

theorem claim_C3_witness :
    requestUrl "u" "GET" [] fixNet404 fixSt =
      (.error "Not Found",
        { fixSt with calls := 1, trace := [Event.net ⟨"u", "GET", []⟩] }) :=
  (claim_C3_request_failure_threshold "u" "GET" [] fixNet404 fixSt
    ⟨404, "Not Found", JVal.null⟩ rfl).1 (by decide)

/-- Claim C3 counterexample: a response with status exactly 300 — which is
`at least 300` — does not make the call fail: the parsed body is returned.
So `fails exactly when the status is at least 300` is false at this input. -/
theorem claim_C3_cex :
    fixNet300 0 ⟨"u", "GET", []⟩ = .ok ⟨300, "Multiple Choices", JVal.str "hi"⟩
    ∧ (300 : Nat) ≥ 300
    ∧ (requestUrl "u" "GET" [] fixNet300 fixSt).1 = .ok (JVal.str "hi") :=
  ⟨rfl, Nat.le_refl 300, rfl⟩

/-- Claim C10: with the base already resolved, `commentCreate` issues the
comment POST and returns the locally composed string concatenating the
repository URL, the commit-page infix and the commit SHA; the returned value
does not depend on the response body `resp.jsonBody`, which is universally
quantified here. -/
theorem claim_C10_commentCreate_url (net : Net) (s : St) (b sha report : String)
    (resp : HttpResp)
    (hb : s.detectedBase = some b) (hbne : b ≠ "")
    (h : net s.calls (endpointReq b ("/projects/" ++ cachedProjectPath s.repo b ++ "/repository/commits/" ++ sha ++ "/comments") "POST" [("note", report)]) = .ok resp)
    (hst : resp.status ≤ 300) :
    commentCreate sha report net s =
      (.ok (s.repo ++ "/-/commit/" ++ sha),
        { s with calls := s.calls + 1,
                 trace := s.trace ++ [Event.net (endpointReq b ("/projects/" ++ cachedProjectPath s.repo b ++ "/repository/commits/" ++ sha ++ "/comments") "POST" [("note", report)])] }) := by
  unfold commentCreate
  rw [projectPath_cached net s b hb hbne]
  simp only []
  rw [requestEndpoint_cached _ _ _ net s b hb hbne]
  simp only [endpointReq] at h ⊢
  simp [requestUrl, h, Nat.not_lt.mpr hst]

/-- Oracle for the comment POST: a 201 with an arbitrary body. -/
def fixNet201 : Net := fun _ _ => .ok ⟨201, "Created", JVal.obj [("id", JVal.num 9)]⟩

theorem claim_C10_witness :
    commentCreate "abc" "hello" fixNet201 fixSt =
      (.ok "https://h/g/p/-/commit/abc",
        { fixSt with
          calls := 1
          trace := [Event.net ⟨"https://h/api/v4/projects/g%2Fp/repository/commits/abc/comments", "POST", [("note", "hello")]⟩] }) :=
  claim_C10_commentCreate_url fixNet201 fixSt "https://h" "abc" "hello"
    ⟨201, "Created", JVal.obj [("id", JVal.num 9)]⟩ rfl (by decide) rfl (by decide)

theorem repoBaseCore_parseNone (net : Net) (s : St)
    (hp : parseURL s.repo = none) :
    repoBaseCore net s = (.error "Invalid URL", s) := by
  unfold repoBaseCore
  rw [hp]

theorem repoBaseCore_notFound (net : Net) (s : St) (parts : UrlParts)
    (hp : parseURL s.repo = some parts)
    (hf : firstFound (pureProbes net s.calls (repoCandidates parts)) = none) :
    ∃ e s2, repoBaseCore net s = (.error e, s2) := by
  have hf2 : firstFound (pureProbes net s.calls (joinCandidates parts.origin
      ((splitChar '/' parts.pathname).filter (fun x => x != "")))) = none := hf
  unfold repoBaseCore
  rw [hp]
  simp only [probeAll_eq]
  rw [hf2]
  cases hl : pureProbes net s.calls (joinCandidates parts.origin
      ((splitChar '/' parts.pathname).filter (fun x => x != ""))) with
  | nil =>
    exact ⟨_, _, rfl⟩
  | cons r0 t =>
    cases r0 with
    | found p =>
      rw [hl] at hf2
      simp [firstFound] at hf2
    | errored e =>
      exact ⟨_, _, rfl⟩
    | nothing =>
      exact ⟨_, _, rfl⟩

theorem repoBaseCore_ok_inv (net : Net) (s : St) (b : String) (s1 : St)
    (h : repoBaseCore net s = (.ok b, s1)) :
    s1.detectedBase = some b ∧ b ≠ "" := by
  cases hp : parseURL s.repo with
  | none =>
    rw [repoBaseCore_parseNone net s hp] at h
    exact absurd h (by simp)
  | some parts =>
    cases hf : firstFound (pureProbes net s.calls (repoCandidates parts)) with
    | some b2 =>
      rw [repoBaseCore_found net s parts b2 hp hf] at h
      simp only [Prod.mk.injEq, Except.ok.injEq] at h
      obtain ⟨hb, hs⟩ := h
      subst hb
      subst hs
      refine ⟨rfl, ?_⟩
      exact repoCandidates_ne_empty parts b2
        (pureProbes_found_mem net _ _ _ (firstFound_mem _ _ hf))
    | none =>
      obtain ⟨e, s2, he⟩ := repoBaseCore_notFound net s parts hp hf
      rw [he] at h
      exact absurd h (by simp)

/-- Claim C8: `repoBase` is memoized within one driver instance.  First
conjunct: once `detectedBase` holds a (necessarily nonempty) value, a call
returns it with the state — request count and trace included — unchanged, so
no network I/O happens, under any oracle.  Second conjunct: every successful
call stores its result in `detectedBase`, and that result is nonempty, so
the first conjunct governs every subsequent call and returns the same value. -/
theorem claim_C8_repoBase_memoized :
    (∀ (net : Net) (s : St) (b : String),
      s.detectedBase = some b → b ≠ "" → repoBase net s = (.ok b, s))
    ∧ (∀ (net : Net) (s : St) (b : String) (s1 : St),
      repoBase net s = (.ok b, s1) → s1.detectedBase = some b ∧ b ≠ "") := by
  constructor
  · exact repoBase_cached
  · intro net s b s1 h
    cases hd : s.detectedBase with
    | none =>
      rw [repoBase_fresh net s (by rw [hd]; rfl)] at h
      exact repoBaseCore_ok_inv net s b s1 h
    | some c =>
      by_cases hc : c = ""
      · subst hc
        rw [repoBase_fresh net s (by rw [hd]; rfl)] at h
        exact repoBaseCore_ok_inv net s b s1 h
      · rw [repoBase_cached net s c hd hc] at h
        simp only [Prod.mk.injEq, Except.ok.injEq] at h
        obtain ⟨hb, hs⟩ := h
        subst hb
        subst hs
        exact ⟨hd, hc⟩

theorem claim_C8_witness :
    repoBase fixNet404 fixSt = (.ok "https://h", fixSt) :=
  claim_C8_repoBase_memoized.1 fixNet404 fixSt "https://h" rfl (by decide)

/-- Claim C1 (amended): `repoBase` builds one candidate root for every
proper prefix of the path-segment list — index 0, the bare origin, up to
length minus one; the full segment list is never joined into a candidate —
probes every candidate with a version request (the trace grows by exactly
the probe request of each candidate, in array order), and returns the
candidate of the least index whose probe succeeded: the first success in
shortest-to-longest order, not longest-to-shortest. -/
theorem claim_C1_resolver_selection (net : Net) (s : St) (parts : UrlParts) (i : Nat)
    (hfresh : truthyOptStr s.detectedBase = false)
    (hparse : parseURL s.repo = some parts)
    (hi : i < (repoCandidates parts).length)
    (hfound : isFound ((pureProbes net s.calls (repoCandidates parts)).getD i ProbeResult.nothing) = true)
    (hmin : ∀ j, j < i →
      isFound ((pureProbes net s.calls (repoCandidates parts)).getD j ProbeResult.nothing) = false) :
    repoBase net s = (.ok ((repoCandidates parts).getD i ""),
      { s with detectedBase := some ((repoCandidates parts).getD i ""),
               calls := s.calls + (repoCandidates parts).length,
               trace := s.trace ++ (repoCandidates parts).map (fun c => Event.net (probeReq c)) }) := by
  rw [repoBase_fresh net s hfresh]
  have hgd : (pureProbes net s.calls (repoCandidates parts)).getD i ProbeResult.nothing
      = pureProbe net (s.calls + i) ((repoCandidates parts).getD i "") :=
    pureProbes_getD net (repoCandidates parts) s.calls i hi
  have hff : firstFound (pureProbes net s.calls (repoCandidates parts))
      = some ((repoCandidates parts).getD i "") := by
    apply firstFound_of_min _ i
    · rw [hgd]
      cases hpr : pureProbe net (s.calls + i) ((repoCandidates parts).getD i "") with
      | found p =>
        rw [pureProbe_found net _ _ _ hpr]
      | errored m =>
        rw [hgd, hpr] at hfound
        simp [isFound] at hfound
      | nothing =>
        rw [hgd, hpr] at hfound
        simp [isFound] at hfound
    · exact hmin
  exact repoBaseCore_found net s parts _ hparse hff

/-- Fresh driver state for resolution: nothing memoized yet. -/
def fixStFresh : St := ⟨"https://h/sub/g/p", "tok", none, 0, []⟩

/-- Parsed components of the fixed repository URL. -/
def fixParts : UrlParts := ⟨"https", "h", "/sub/g/p"⟩

/-- Oracle where only the one-segment prefix hosts a version endpoint. -/
def fixNetC1 : Net := fun _ req =>
  if req.url == "https://h/sub/api/v4/version" then
    .ok ⟨200, "OK", JVal.obj [("version", JVal.str "15.0")]⟩
  else .ok ⟨404, "Not Found", JVal.null⟩

theorem claim_C1_witness :
    repoBase fixNetC1 fixStFresh = (.ok "https://h/sub",
      { fixStFresh with
        detectedBase := some "https://h/sub"
        calls := 3
        trace := [Event.net (probeReq "https://h"), Event.net (probeReq "https://h/sub"),
          Event.net (probeReq "https://h/sub/g")] }) :=
  claim_C1_resolver_selection fixNetC1 fixStFresh fixParts 1 rfl rfl (by decide)
    (by decide)
    (fun j hj => by
      have h0 : j = 0 := Nat.lt_one_iff.mp hj
      subst h0
      rfl)

/-- Oracle where both the origin and the one-segment prefix host version
endpoints and deeper prefixes fail. -/
def fixNetC1b : Net := fun _ req =>
  if req.url == "https://h/api/v4/version" || req.url == "https://h/sub/api/v4/version" then
    .ok ⟨200, "OK", JVal.obj [("version", JVal.str "15.0")]⟩
  else .ok ⟨404, "Not Found", JVal.null⟩

/-- Pure success predicate of a candidate under `fixNetC1b`: the probe
response status is a success and carries a truthy version payload. -/
def fixProbeOk (c : String) : Bool :=
  match fixNetC1b 0 (probeReq c) with
  | .ok resp => decide (resp.status ≤ 300) && (resp.jsonBody.get "version").truthy
  | .error _ => false

/-- Claim C1 counterexample: with both the origin and the one-segment prefix
hosting valid version endpoints and every deeper prefix failing, selection
over every prefix of the segment list from longest to shortest with the
first success winning picks the one-segment root, but `repoBase` returns
the bare origin — the first success in shortest-to-longest order — so the
claimed selection rule is false at this input; and the full segment list is
not among the candidates the code constructs at all. -/
theorem claim_C1_cex :
    (repoBase fixNetC1b fixStFresh).1 = .ok "https://h"
    ∧ specSelectLongestFirst (specCandidatesAllPrefixes "https://h" ["sub", "g", "p"]) fixProbeOk
        = some "https://h/sub"
    ∧ ("https://h" : String) ≠ "https://h/sub"
    ∧ "https://h/sub/g/p" ∉ repoCandidates fixParts :=
  ⟨rfl, rfl, by decide, by decide⟩

/-- Claim C4 (amended): when every candidate probe of a fresh resolution
fails, `repoBase` rethrows the error of the first probe unchanged — it is
not wrapped in any `ResolutionError`-style context — and when the URL yields
zero candidates it fails immediately with `Invalid repository address`,
issuing no probe at all (request count and trace unchanged). -/
theorem claim_C4_resolution_failure (net : Net) (s : St) (parts : UrlParts)
    (hfresh : truthyOptStr s.detectedBase = false)
    (hparse : parseURL s.repo = some parts) :
    (∀ (e0 : String) (rest : List ProbeResult),
      pureProbes net s.calls (repoCandidates parts) = ProbeResult.errored e0 :: rest →
      (∀ r ∈ pureProbes net s.calls (repoCandidates parts), isFound r = false) →
      repoBase net s = (.error e0,
        { s with detectedBase := none,
                 calls := s.calls + (repoCandidates parts).length,
                 trace := s.trace ++ (repoCandidates parts).map (fun c => Event.net (probeReq c)) }))
    ∧ (repoCandidates parts = [] →
      repoBase net s = (.error "Invalid repository address",
        { s with detectedBase := none })) := by
  constructor
  · intro e0 rest hres hnone
    rw [repoBase_fresh net s hfresh]
    exact repoBaseCore_allErrored net s parts e0 rest hparse hres hnone
  · intro hempty
    rw [repoBase_fresh net s hfresh]
    exact repoBaseCore_noCandidates net s parts hparse hempty

theorem claim_C4_witness :
    repoBase fixNet404 fixStFresh = (.error "Not Found",
      { fixStFresh with
        detectedBase := none
        calls := 3
        trace := [Event.net (probeReq "https://h"), Event.net (probeReq "https://h/sub"),
          Event.net (probeReq "https://h/sub/g")] }) :=
  (claim_C4_resolution_failure fixNet404 fixStFresh fixParts rfl rfl).1 "Not Found"
    [ProbeResult.errored "Not Found", ProbeResult.errored "Not Found"] rfl (by decide)

/-- Claim C4 counterexample: with every probe failing with `Not Found`, the
operation fails with exactly the raw message `Not Found`, which is not the
`ResolutionError`-wrapped form of that error — so `propagated wrapped as a
ResolutionError` is false at this input. -/
theorem claim_C4_cex :
    (repoBase fixNet404 fixStFresh).1 = .error "Not Found"
    ∧ "Not Found" ≠ specWrapResolution "Not Found" :=
  ⟨rfl, by decide⟩

/-- Claim C2 (amended): the state filter of the merge-request listing is
split between two operations.  First conjunct: the commit-scoped listing
`commitPrs` filters client-side — every returned entry derives from a
response entry whose state is exactly `opened`, so entries in any other
state are excluded.  Second conjunct: `prs` itself performs no client-side
filtering: it forwards the requested state to the remote in the query string
and maps every entry of the response, whatever its state. -/
theorem claim_C2_state_filtering :
    (∀ (net : Net) (s : St) (b sha : String) (resp : HttpResp) (xs : List JVal),
      s.detectedBase = some b → b ≠ "" →
      net s.calls (endpointReq b ("/projects/" ++ cachedProjectPath s.repo b ++ "/repository/commits/" ++ sha ++ "/merge_requests") "GET" []) = .ok resp →
      resp.status ≤ 300 → resp.jsonBody = .arr xs →
      commitPrs sha net s =
        (.ok ((xs.filter (fun pr => (pr.get "state").isStr "opened")).map toPrOut),
          { s with
            calls := s.calls + 1
            trace := s.trace ++ [Event.net (endpointReq b ("/projects/" ++ cachedProjectPath s.repo b ++ "/repository/commits/" ++ sha ++ "/merge_requests") "GET" [])] })
      ∧ ∀ p ∈ (xs.filter (fun pr => (pr.get "state").isStr "opened")).map toPrOut,
          ∃ pr ∈ xs, (pr.get "state").isStr "opened" = true ∧ p = toPrOut pr)
    ∧ (∀ (net : Net) (s : St) (b state : String) (resp : HttpResp) (xs : List JVal),
      s.detectedBase = some b → b ≠ "" →
      net s.calls (endpointReq b ("/projects/" ++ cachedProjectPath s.repo b ++ "/merge_requests?state=" ++ state) "GET" []) = .ok resp →
      resp.status ≤ 300 → resp.jsonBody = .arr xs →
      prs state net s =
        (.ok (xs.map toPrOut),
          { s with
            calls := s.calls + 1
            trace := s.trace ++ [Event.net (endpointReq b ("/projects/" ++ cachedProjectPath s.repo b ++ "/merge_requests?state=" ++ state) "GET" [])] })) := by
  constructor
  · intro net s b sha resp xs hb hbne h hst harr
    constructor
    · unfold commitPrs
      rw [projectPath_cached net s b hb hbne]
      simp only []
      rw [requestEndpoint_cached _ _ _ net s b hb hbne]
      simp only [endpointReq] at h ⊢
      simp [requestUrl, h, Nat.not_lt.mpr hst, harr]
    · intro p hp
      rcases List.mem_map.mp hp with ⟨pr, hpr, hpe⟩
      rcases List.mem_filter.mp hpr with ⟨hmem, hopen⟩
      exact ⟨pr, hmem, hopen, hpe.symm⟩
  · intro net s b state resp xs hb hbne h hst harr
    unfold prs
    rw [projectPath_cached net s b hb hbne]
    simp only []
    rw [requestEndpoint_cached _ _ _ net s b hb hbne]
    simp only [endpointReq] at h ⊢
    simp [requestUrl, h, Nat.not_lt.mpr hst, harr]

/-- An open merge-request entry as the remote would return it. -/
def fixMrOpen : JVal := JVal.obj [("web_url", JVal.str "u1"),
  ("source_branch", JVal.str "b1"), ("target_branch", JVal.str "m1"),
  ("state", JVal.str "opened")]

/-- A closed merge-request entry as the remote would return it. -/
def fixMrClosed : JVal := JVal.obj [("web_url", JVal.str "u2"),
  ("source_branch", JVal.str "b2"), ("target_branch", JVal.str "m2"),
  ("state", JVal.str "closed")]

/-- Oracle answering every request with a list holding one open and one
closed merge request. -/
def fixNetMrs : Net := fun _ _ => .ok ⟨200, "OK", JVal.arr [fixMrOpen, fixMrClosed]⟩

theorem claim_C2_witness :
    commitPrs "abc" fixNetMrs fixSt =
      (.ok [toPrOut fixMrOpen],
        { fixSt with
          calls := 1
          trace := [Event.net ⟨"https://h/api/v4/projects/g%2Fp/repository/commits/abc/merge_requests", "GET", []⟩] }) :=
  ((claim_C2_state_filtering.1 fixNetMrs fixSt "https://h" "abc"
    ⟨200, "OK", JVal.arr [fixMrOpen, fixMrClosed]⟩ [fixMrOpen, fixMrClosed]
    rfl (by decide) rfl (by decide) rfl).1)

/-- Claim C2 counterexample: when the remote's response to the
state-`opened` listing contains an entry whose state is `closed`, `prs`
returns that entry too — the result is the projection of the whole response,
so a PR whose state is not open is not excluded. -/
theorem claim_C2_cex :
    (prs "opened" fixNetMrs fixSt).1 = .ok [toPrOut fixMrOpen, toPrOut fixMrClosed]
    ∧ (fixMrClosed.get "state").isStr "opened" = false
    ∧ toPrOut fixMrClosed ∈ [toPrOut fixMrOpen, toPrOut fixMrClosed] :=
  ⟨rfl, rfl, List.mem_cons_of_mem _ (List.mem_cons_self _ _)⟩

theorem requestUrl_state (url method : String) (body : List (String × String))
    (net : Net) (s : St) :
    (requestUrl url method body net s).2 =
      { s with calls := s.calls + 1, trace := s.trace ++ [Event.net ⟨url, method, body⟩] } := by
  cases h : net s.calls ⟨url, method, body⟩ with
  | error e => simp [requestUrl, h]
  | ok resp => by_cases hs : resp.status > 300 <;> simp [requestUrl, h, hs]

theorem requestEndpoint_state (endpoint method : String) (body : List (String × String))
    (net : Net) (s : St) (b : String)
    (hb : s.detectedBase = some b) (hbne : b ≠ "") :
    (requestEndpoint endpoint method body net s).2 =
      { s with calls := s.calls + 1,
               trace := s.trace ++ [Event.net (endpointReq b endpoint method body)] } := by
  rw [requestEndpoint_cached endpoint method body net s b hb hbne]
  exact requestUrl_state _ _ _ net s

theorem requestEndpoint_ok (endpoint method : String) (body : List (String × String))
    (net : Net) (s : St) (b : String) (resp : HttpResp)
    (hb : s.detectedBase = some b) (hbne : b ≠ "")
    (h : net s.calls (endpointReq b endpoint method body) = .ok resp)
    (hst : resp.status ≤ 300) :
    requestEndpoint endpoint method body net s =
      (.ok resp.jsonBody,
        { s with calls := s.calls + 1,
                 trace := s.trace ++ [Event.net (endpointReq b endpoint method body)] }) := by
  rw [requestEndpoint_cached endpoint method body net s b hb hbne]
  simp only [endpointReq] at h ⊢
  simp [requestUrl, h, Nat.not_lt.mpr hst]

theorem pipelineRerunWithId_trace (pp id : String) (net : Net) (s : St) (b : String)
    (r2 : HttpResp)
    (hb : s.detectedBase = some b) (hbne : b ≠ "")
    (h2 : net s.calls (endpointReq b ("/projects/" ++ pp ++ "/pipelines/" ++ id) "GET" []) = .ok r2)
    (h2s : r2.status ≤ 300)
    (hcancel : (r2.jsonBody.get "status").isStr "running" = true →
      ∃ r3, net (s.calls + 1) (endpointReq b ("/projects/" ++ pp ++ "/pipelines/" ++ id ++ "/cancel") "POST" []) = .ok r3 ∧ r3.status ≤ 300) :
    (pipelineRerunWithId pp id net s).2 =
      { s with
        calls := s.calls + (if (r2.jsonBody.get "status").isStr "running" then 3 else 2)
        trace := s.trace ++ [Event.net (endpointReq b ("/projects/" ++ pp ++ "/pipelines/" ++ id) "GET" [])]
          ++ (if (r2.jsonBody.get "status").isStr "running" then
              [Event.net (endpointReq b ("/projects/" ++ pp ++ "/pipelines/" ++ id ++ "/cancel") "POST" [])] else [])
          ++ [Event.net (endpointReq b ("/projects/" ++ pp ++ "/pipelines/" ++ id ++ "/retry") "POST" [])] } := by
  unfold pipelineRerunWithId
  rw [requestEndpoint_ok _ _ _ net s b r2 hb hbne h2 h2s]
  by_cases hrun : (r2.jsonBody.get "status").isStr "running" = true
  · rcases hcancel hrun with ⟨r3, h3, h3s⟩
    simp only [hrun, if_true]
    rw [requestEndpoint_ok _ _ _ net
      { s with calls := s.calls + 1,
               trace := s.trace ++ [Event.net (endpointReq b ("/projects/" ++ pp ++ "/pipelines/" ++ id) "GET" [])] }
      b r3 hb hbne h3 h3s]
    simp only []
    have h5 := requestEndpoint_state ("/projects/" ++ pp ++ "/pipelines/" ++ id ++ "/retry") "POST" [] net
      { s with calls := s.calls + 1 + 1,
               trace := (s.trace ++ [Event.net (endpointReq b ("/projects/" ++ pp ++ "/pipelines/" ++ id) "GET" [])]) ++ [Event.net (endpointReq b ("/projects/" ++ pp ++ "/pipelines/" ++ id ++ "/cancel") "POST" [])] }
      b hb hbne
    cases hlast : requestEndpoint ("/projects/" ++ pp ++ "/pipelines/" ++ id ++ "/retry") "POST" [] net
      { s with calls := s.calls + 1 + 1,
               trace := (s.trace ++ [Event.net (endpointReq b ("/projects/" ++ pp ++ "/pipelines/" ++ id) "GET" [])]) ++ [Event.net (endpointReq b ("/projects/" ++ pp ++ "/pipelines/" ++ id ++ "/cancel") "POST" [])] } with
    | mk res s5 =>
      rw [hlast] at h5
      cases res with
      | error e => exact h5.trans rfl
      | ok v => exact h5.trans rfl
  · have hrunf : (r2.jsonBody.get "status").isStr "running" = false :=
      Bool.eq_false_iff.mpr hrun
    simp only [hrunf, Bool.false_eq_true, if_false]
    have h5 := requestEndpoint_state ("/projects/" ++ pp ++ "/pipelines/" ++ id ++ "/retry") "POST" [] net
      { s with calls := s.calls + 1,
               trace := s.trace ++ [Event.net (endpointReq b ("/projects/" ++ pp ++ "/pipelines/" ++ id) "GET" [])] }
      b hb hbne
    cases hlast : requestEndpoint ("/projects/" ++ pp ++ "/pipelines/" ++ id ++ "/retry") "POST" [] net
      { s with calls := s.calls + 1,
               trace := s.trace ++ [Event.net (endpointReq b ("/projects/" ++ pp ++ "/pipelines/" ++ id) "GET" [])] } with
    | mk res s5 =>
      rw [hlast] at h5
      cases res with
      | error e =>
        refine h5.trans ?_
        simp [St.mk.injEq, List.append_assoc]
      | ok v =>
        refine h5.trans ?_
        simp [St.mk.injEq, List.append_assoc]

/-- Claim C6: `pipelineRerun` given only a job id first resolves the job's
parent pipeline id with a job fetch, then fetches the pipeline's status; a
cancel request appears in the trace if and only if the fetched status is
`running`, positioned after the status fetch and before the retry request;
and the retry request is issued in every case — in particular a pipeline in
any other state (such as `failed`) gets only the retry request after the two
fetches. -/
theorem claim_C6_pipelineRerun_order (net : Net) (s : St) (b j : String)
    (r1 r2 : HttpResp)
    (hb : s.detectedBase = some b) (hbne : b ≠ "") (hj : j ≠ "")
    (h1 : net s.calls (endpointReq b ("/projects/" ++ cachedProjectPath s.repo b ++ "/jobs/" ++ j) "GET" []) = .ok r1)
    (h1s : r1.status ≤ 300)
    (h1p : r1.jsonBody.get "pipeline" ≠ JVal.null)
    (h2 : net (s.calls + 1) (endpointReq b ("/projects/" ++ cachedProjectPath s.repo b ++ "/pipelines/" ++ jvalTemplate ((r1.jsonBody.get "pipeline").get "id")) "GET" []) = .ok r2)
    (h2s : r2.status ≤ 300)
    (hcancel : (r2.jsonBody.get "status").isStr "running" = true →
      ∃ r3, net (s.calls + 2) (endpointReq b ("/projects/" ++ cachedProjectPath s.repo b ++ "/pipelines/" ++ jvalTemplate ((r1.jsonBody.get "pipeline").get "id") ++ "/cancel") "POST" []) = .ok r3 ∧ r3.status ≤ 300) :
    (pipelineRerun none (some j) net s).2 =
      { s with
        calls := s.calls + (if (r2.jsonBody.get "status").isStr "running" then 4 else 3)
        trace := s.trace
          ++ [Event.net (endpointReq b ("/projects/" ++ cachedProjectPath s.repo b ++ "/jobs/" ++ j) "GET" [])]
          ++ [Event.net (endpointReq b ("/projects/" ++ cachedProjectPath s.repo b ++ "/pipelines/" ++ jvalTemplate ((r1.jsonBody.get "pipeline").get "id")) "GET" [])]
          ++ (if (r2.jsonBody.get "status").isStr "running" then
              [Event.net (endpointReq b ("/projects/" ++ cachedProjectPath s.repo b ++ "/pipelines/" ++ jvalTemplate ((r1.jsonBody.get "pipeline").get "id") ++ "/cancel") "POST" [])] else [])
          ++ [Event.net (endpointReq b ("/projects/" ++ cachedProjectPath s.repo b ++ "/pipelines/" ++ jvalTemplate ((r1.jsonBody.get "pipeline").get "id") ++ "/retry") "POST" [])] } := by
  unfold pipelineRerun
  rw [projectPath_cached net s b hb hbne]
  have hcond : (!truthyOptStr (none : Option String) && truthyOptStr (some j)) = true := by
    simp [truthyOptStr, bne_iff_ne, hj]
  simp only [hcond, if_true, renderOpt]
  rw [requestEndpoint_ok _ _ _ net s b r1 hb hbne h1 h1s]
  simp only []
  cases hpv : r1.jsonBody.get "pipeline"
  case null => exact absurd hpv h1p
  all_goals
    rw [hpv] at h2 hcancel
    try simp only []
    rw [pipelineRerunWithId_trace (cachedProjectPath s.repo b) _ net
      { s with calls := s.calls + 1,
               trace := s.trace ++ [Event.net (endpointReq b ("/projects/" ++ cachedProjectPath s.repo b ++ "/jobs/" ++ j) "GET" [])] }
      b r2 hb hbne h2 h2s hcancel]
    by_cases hrun : (r2.jsonBody.get "status").isStr "running" = true
    · simp [hrun, St.mk.injEq, List.append_assoc]
    · simp [Bool.eq_false_iff.mpr hrun, St.mk.injEq, List.append_assoc]

/-- Oracle for a rerun-by-job-id flow: job fetch, then a running pipeline,
then plain successes. -/
def fixNetC6 : Net := fun i _ =>
  if i == 0 then .ok ⟨200, "OK", JVal.obj [("pipeline", JVal.obj [("id", JVal.num 77)])]⟩
  else if i == 1 then .ok ⟨200, "OK", JVal.obj [("status", JVal.str "running")]⟩
  else .ok ⟨200, "OK", JVal.obj []⟩

theorem claim_C6_witness :
    (pipelineRerun none (some "5") fixNetC6 fixSt).2 =
      { fixSt with
        calls := 4
        trace := [Event.net ⟨"https://h/api/v4/projects/g%2Fp/jobs/5", "GET", []⟩,
          Event.net ⟨"https://h/api/v4/projects/g%2Fp/pipelines/77", "GET", []⟩,
          Event.net ⟨"https://h/api/v4/projects/g%2Fp/pipelines/77/cancel", "POST", []⟩,
          Event.net ⟨"https://h/api/v4/projects/g%2Fp/pipelines/77/retry", "POST", []⟩] } :=
  claim_C6_pipelineRerun_order fixNetC6 fixSt "https://h" "5"
    ⟨200, "OK", JVal.obj [("pipeline", JVal.obj [("id", JVal.num 77)])]⟩
    ⟨200, "OK", JVal.obj [("status", JVal.str "running")]⟩
    rfl (by decide) (by decide) rfl (by decide)
    (fun h => JVal.noConfusion h)
    rfl (by decide)
    (fun _ => ⟨⟨200, "OK", JVal.obj []⟩, rfl, by decide⟩)

/-- A network outcome on which `Gitlab.request` raises: either the fetch
itself rejected, or the response status exceeds 300. -/
def reqFails : Except String HttpResp → Prop
  | .error _ => True
  | .ok resp => resp.status > 300

theorem requestEndpoint_fail (endpoint method : String) (body : List (String × String))
    (net : Net) (s : St) (b : String)
    (hb : s.detectedBase = some b) (hbne : b ≠ "")
    (hfail : reqFails (net s.calls (endpointReq b endpoint method body))) :
    ∃ e, requestEndpoint endpoint method body net s =
      (.error e, { s with calls := s.calls + 1,
                          trace := s.trace ++ [Event.net (endpointReq b endpoint method body)] }) := by
  rw [requestEndpoint_cached endpoint method body net s b hb hbne]
  cases h : net s.calls (endpointReq b endpoint method body) with
  | error e =>
    refine ⟨e, ?_⟩
    simp only [endpointReq] at h ⊢
    simp [requestUrl, h]
  | ok resp =>
    rw [h] at hfail
    have hgt : resp.status > 300 := hfail
    refine ⟨resp.statusText, ?_⟩
    simp only [endpointReq] at h ⊢
    simp [requestUrl, h, hgt]

/-- The merge endpoint for a merge request of a project. -/
def mergeEndpoint (pp prId : String) : String :=
  "/projects/" ++ pp ++ "/merge_requests/" ++ prId ++ "/merge"

/-- The form body of the gated (wait-for-pipeline) merge request built by
`prAutoMerge`. -/
def gatedMergeBody (mergeMode : String) (mergeMessage : Option String) : List (String × String) :=
  match mergeMessage with
  | some m => setParam (setParam (setParam [] "merge_when_pipeline_succeeds" "true")
      "squash" (if mergeMode == "squash" then "true" else "false"))
      (mergeMode ++ "_commit_message") m
  | none => setParam (setParam [] "merge_when_pipeline_succeeds" "true")
      "squash" (if mergeMode == "squash" then "true" else "false")

theorem backOffRun_allFail (net : Net) (b endpoint : String) (body : List (String × String))
    (hbne : b ≠ "")
    (hfail : ∀ i, reqFails (net i (endpointReq b endpoint "PUT" body))) :
    ∀ n, 1 ≤ n → ∀ t : St, t.detectedBase = some b →
      ∃ e, backOffRun (requestEndpoint endpoint "PUT" body) n net t =
        (.error e, { t with calls := t.calls + n,
                            trace := t.trace ++ List.replicate n (Event.net (endpointReq b endpoint "PUT" body)) }) := by
  intro n
  induction n with
  | zero => intro h0; exact absurd h0 (by omega)
  | succ m ih =>
    intro _ t ht
    cases m with
    | zero =>
      obtain ⟨e, he⟩ := requestEndpoint_fail endpoint "PUT" body net t b ht hbne (hfail t.calls)
      exact ⟨e, he⟩
    | succ k =>
      obtain ⟨e1, he1⟩ := requestEndpoint_fail endpoint "PUT" body net t b ht hbne (hfail t.calls)
      obtain ⟨e2, he2⟩ := ih (by omega)
        { t with calls := t.calls + 1,
                 trace := t.trace ++ [Event.net (endpointReq b endpoint "PUT" body)] } ht
      refine ⟨e2, ?_⟩
      simp only [backOffRun]
      rw [he1]
      simp only []
      rw [he2]
      simp [St.mk.injEq, List.replicate_succ, List.append_assoc]
      omega

/-- Claim C5: when every attempt of the retried gated merge fails (the
oracle fails every gated request, whatever the attempt), `prAutoMerge`
issues exactly ten gated attempts (the `backOff` default), then exactly one
fallback merge request whose `merge_when_pipeline_succeeds` flag is cleared
to `false`; the fallback is not retried — the trace ends with that single
request — and the overall call resolves with `ok` regardless of what the
oracle answers to the fallback, so a fallback failure is not propagated. -/
theorem claim_C5_autoMerge_fallback (net : Net) (s : St) (b pullRequestId mergeMode : String)
    (mergeMessage : Option String)
    (hb : s.detectedBase = some b) (hbne : b ≠ "") (hmode : mergeMode ≠ "rebase")
    (hfail : ∀ i, reqFails (net i (endpointReq b
      (mergeEndpoint (cachedProjectPath s.repo b) pullRequestId) "PUT"
      (gatedMergeBody mergeMode mergeMessage)))) :
    prAutoMerge pullRequestId mergeMode mergeMessage net s =
      (.ok (),
        { s with
          calls := s.calls + 11
          trace := s.trace
            ++ List.replicate 10 (Event.net (endpointReq b
                (mergeEndpoint (cachedProjectPath s.repo b) pullRequestId) "PUT"
                (gatedMergeBody mergeMode mergeMessage)))
            ++ [Event.net (endpointReq b
                (mergeEndpoint (cachedProjectPath s.repo b) pullRequestId) "PUT"
                (setParam (gatedMergeBody mergeMode mergeMessage) "merge_when_pipeline_succeeds" "false"))] }) := by
  have hmodeb : (mergeMode == "rebase") = false := by
    simp [hmode]
  obtain ⟨e1, he1⟩ := backOffRun_allFail net b
    (mergeEndpoint (cachedProjectPath s.repo b) pullRequestId)
    (gatedMergeBody mergeMode mergeMessage) hbne hfail 10 (by omega) s hb
  unfold prAutoMerge
  simp only [hmodeb, Bool.false_eq_true, if_false]
  rw [projectPath_cached net s b hb hbne]
  simp only [mergeEndpoint, gatedMergeBody] at he1 ⊢
  cases mergeMessage with
  | none =>
    simp only []
    rw [he1]
    simp only []
    have h5 := requestEndpoint_state
      ("/projects/" ++ cachedProjectPath s.repo b ++ "/merge_requests/" ++ pullRequestId ++ "/merge") "PUT"
      (setParam (setParam (setParam [] "merge_when_pipeline_succeeds" "true")
        "squash" (if mergeMode == "squash" then "true" else "false")) "merge_when_pipeline_succeeds" "false") net
      { s with calls := s.calls + 10,
               trace := s.trace ++ List.replicate 10 (Event.net (endpointReq b ("/projects/" ++ cachedProjectPath s.repo b ++ "/merge_requests/" ++ pullRequestId ++ "/merge") "PUT" (setParam (setParam [] "merge_when_pipeline_succeeds" "true") "squash" (if mergeMode == "squash" then "true" else "false")))) }
      b hb hbne
    cases hlast : requestEndpoint
      ("/projects/" ++ cachedProjectPath s.repo b ++ "/merge_requests/" ++ pullRequestId ++ "/merge") "PUT"
      (setParam (setParam (setParam [] "merge_when_pipeline_succeeds" "true")
        "squash" (if mergeMode == "squash" then "true" else "false")) "merge_when_pipeline_succeeds" "false") net
      { s with calls := s.calls + 10,
               trace := s.trace ++ List.replicate 10 (Event.net (endpointReq b ("/projects/" ++ cachedProjectPath s.repo b ++ "/merge_requests/" ++ pullRequestId ++ "/merge") "PUT" (setParam (setParam [] "merge_when_pipeline_succeeds" "true") "squash" (if mergeMode == "squash" then "true" else "false")))) } with
    | mk res s3 =>
      rw [hlast] at h5
      have h6 : s3 = _ := h5
      simp only []
      rw [h6]
  | some m =>
    simp only []
    rw [he1]
    simp only []
    have h5 := requestEndpoint_state
      ("/projects/" ++ cachedProjectPath s.repo b ++ "/merge_requests/" ++ pullRequestId ++ "/merge") "PUT"
      (setParam (setParam (setParam (setParam [] "merge_when_pipeline_succeeds" "true")
        "squash" (if mergeMode == "squash" then "true" else "false")) (mergeMode ++ "_commit_message") m) "merge_when_pipeline_succeeds" "false") net
      { s with calls := s.calls + 10,
               trace := s.trace ++ List.replicate 10 (Event.net (endpointReq b ("/projects/" ++ cachedProjectPath s.repo b ++ "/merge_requests/" ++ pullRequestId ++ "/merge") "PUT" (setParam (setParam (setParam [] "merge_when_pipeline_succeeds" "true") "squash" (if mergeMode == "squash" then "true" else "false")) (mergeMode ++ "_commit_message") m))) }
      b hb hbne
    cases hlast : requestEndpoint
      ("/projects/" ++ cachedProjectPath s.repo b ++ "/merge_requests/" ++ pullRequestId ++ "/merge") "PUT"
      (setParam (setParam (setParam (setParam [] "merge_when_pipeline_succeeds" "true")
        "squash" (if mergeMode == "squash" then "true" else "false")) (mergeMode ++ "_commit_message") m) "merge_when_pipeline_succeeds" "false") net
      { s with calls := s.calls + 10,
               trace := s.trace ++ List.replicate 10 (Event.net (endpointReq b ("/projects/" ++ cachedProjectPath s.repo b ++ "/merge_requests/" ++ pullRequestId ++ "/merge") "PUT" (setParam (setParam (setParam [] "merge_when_pipeline_succeeds" "true") "squash" (if mergeMode == "squash" then "true" else "false")) (mergeMode ++ "_commit_message") m))) } with
    | mk res s3 =>
      rw [hlast] at h5
      have h6 : s3 = _ := h5
      simp only []
      rw [h6]

/-- Oracle rejecting every request at the network level. -/
def fixNetFailAll : Net := fun _ _ => .error "boom"

theorem claim_C5_witness :
    prAutoMerge "1" "merge" none fixNetFailAll fixSt =
      (.ok (),
        { fixSt with
          calls := 11
          trace := List.replicate 10 (Event.net ⟨"https://h/api/v4/projects/g%2Fp/merge_requests/1/merge", "PUT", [("merge_when_pipeline_succeeds", "true"), ("squash", "false")]⟩)
            ++ [Event.net ⟨"https://h/api/v4/projects/g%2Fp/merge_requests/1/merge", "PUT", [("merge_when_pipeline_succeeds", "false"), ("squash", "false")]⟩] }) :=
  claim_C5_autoMerge_fallback fixNetFailAll fixSt "https://h" "1" "merge" none
    rfl (by decide) (by decide) (fun _ => True.intro)

/-- A list of events consisting solely of HTTP requests. -/
def netOnly (l : List Event) : Prop := ∀ ev ∈ l, ∃ r, ev = Event.net r

/-- The trace grew only by HTTP-request events. -/
def traceMono (l l2 : List Event) : Prop := ∃ ex, l2 = l ++ ex ∧ netOnly ex

theorem netOnly_nil : netOnly [] := by
  intro ev hev
  simp at hev

theorem netOnly_append {l1 l2 : List Event} (h1 : netOnly l1) (h2 : netOnly l2) :
    netOnly (l1 ++ l2) := by
  intro ev hev
  rcases List.mem_append.mp hev with h | h
  · exact h1 ev h
  · exact h2 ev h

theorem traceMono_refl (l : List Event) : traceMono l l :=
  ⟨[], by simp, netOnly_nil⟩

theorem traceMono_trans {a b c : List Event} (h1 : traceMono a b) (h2 : traceMono b c) :
    traceMono a c := by
  rcases h1 with ⟨ex1, he1, hn1⟩
  rcases h2 with ⟨ex2, he2, hn2⟩
  exact ⟨ex1 ++ ex2, by rw [he2, he1, List.append_assoc], netOnly_append hn1 hn2⟩

theorem requestUrl_traceMono (url method : String) (body : List (String × String))
    (net : Net) (s : St) :
    traceMono s.trace ((requestUrl url method body net s).2).trace := by
  refine ⟨[Event.net ⟨url, method, body⟩], ?_, ?_⟩
  · rw [requestUrl_state]
  · intro ev hev
    simp at hev
    exact ⟨_, hev⟩

theorem netOnly_probeMap (cs : List String) :
    netOnly (cs.map (fun c => Event.net (probeReq c))) := by
  intro ev hev
  rcases List.mem_map.mp hev with ⟨c, _, hc⟩
  exact ⟨probeReq c, hc.symm⟩

theorem repoBaseCore_traceMono (net : Net) (s : St) :
    traceMono s.trace ((repoBaseCore net s).2).trace := by
  unfold repoBaseCore
  cases hp : parseURL s.repo with
  | none => exact traceMono_refl _
  | some parts =>
    simp only [probeAll_eq]
    cases hf : firstFound (pureProbes net s.calls (joinCandidates parts.origin
        ((splitChar '/' parts.pathname).filter (fun x => x != "")))) with
    | some b2 =>
      exact ⟨_, rfl, netOnly_probeMap _⟩
    | none =>
      cases hl : pureProbes net s.calls (joinCandidates parts.origin
          ((splitChar '/' parts.pathname).filter (fun x => x != ""))) with
      | nil => exact ⟨_, rfl, netOnly_probeMap _⟩
      | cons r0 t =>
        cases r0 with
        | found p =>
          rw [hl] at hf
          simp [firstFound] at hf
        | errored e => exact ⟨_, rfl, netOnly_probeMap _⟩
        | nothing => exact ⟨_, rfl, netOnly_probeMap _⟩

theorem repoBase_traceMono (net : Net) (s : St) :
    traceMono s.trace ((repoBase net s).2).trace := by
  unfold repoBase
  cases hd : s.detectedBase with
  | none => exact repoBaseCore_traceMono net s
  | some c =>
    by_cases hc : (c != "") = true
    · simp only [hc, if_true]
      exact traceMono_refl _
    · simp only [hc, if_false]
      exact repoBaseCore_traceMono net s

theorem projectPath_traceMono (net : Net) (s : St) :
    traceMono s.trace ((projectPath net s).2).trace := by
  unfold projectPath
  have h := repoBase_traceMono net s
  cases hrb : repoBase net s with
  | mk res s1 =>
    rw [hrb] at h
    cases res with
    | error e => exact h
    | ok v => exact h

theorem requestEndpoint_traceMono (endpoint method : String) (body : List (String × String))
    (net : Net) (s : St) :
    traceMono s.trace ((requestEndpoint endpoint method body net s).2).trace := by
  unfold requestEndpoint
  have h := repoBase_traceMono net s
  cases hrb : repoBase net s with
  | mk res s1 =>
    rw [hrb] at h
    cases res with
    | error e => exact h
    | ok v => exact traceMono_trans h (requestUrl_traceMono _ _ _ net s1)

theorem runnerToken_traceMono (net : Net) (s : St) :
    traceMono s.trace ((runnerToken net s).2).trace := by
  unfold runnerToken
  have h := projectPath_traceMono net s
  cases hpp : projectPath net s with
  | mk res s1 =>
    rw [hpp] at h
    cases res with
    | error e => exact h
    | ok pp =>
      have h2 := requestEndpoint_traceMono ("/projects/" ++ pp) "GET" [] net s1
      refine traceMono_trans h ?_
      change traceMono s1.trace ((match requestEndpoint ("/projects/" ++ pp) "GET" [] net s1 with
        | (Except.error e, s2) => ((Except.error e : Except String JVal), s2)
        | (Except.ok j, s2) => ((Except.ok (j.get "runners_token") : Except String JVal), s2)).2).trace
      cases hre : requestEndpoint ("/projects/" ++ pp) "GET" [] net s1 with
      | mk res2 s2 =>
        rw [hre] at h2
        cases res2 with
        | error e => exact h2
        | ok v => exact h2

theorem registerRunner_traceMono (tags name : String) (net : Net) (s : St) :
    traceMono s.trace ((registerRunner tags name net s).2).trace := by
  unfold registerRunner
  have h := runnerToken_traceMono net s
  cases htk : runnerToken net s with
  | mk res s1 =>
    rw [htk] at h
    cases res with
    | error e => exact h
    | ok tok =>
      exact traceMono_trans h (requestEndpoint_traceMono _ "POST" _ net s1)

theorem netOnly_noDownload {ex : List Event} (h : netOnly ex) :
    ∀ u p, Event.download u p ∉ ex := by
  intro u p hmem
  rcases h _ hmem with ⟨r, hr⟩
  exact Event.noConfusion hr

theorem netOnly_noChmod {ex : List Event} (h : netOnly ex) :
    ∀ p, Event.chmod p ∉ ex := by
  intro p hmem
  rcases h _ hmem with ⟨r, hr⟩
  exact Event.noConfusion hr

theorem startRunnerInner_noProvision (env : FsEnv) (workdir idleTimeout name labels : String)
    (single : Bool) (dockerVolumes : List String) (net : Net) (s : St)
    (hbin : env.binExists = true) :
    ∃ ex, ((startRunnerInner env workdir idleTimeout name labels single dockerVolumes net s).2).trace = s.trace ++ ex
      ∧ (∀ u p, Event.download u p ∉ ex) ∧ (∀ p, Event.chmod p ∉ ex) := by
  unfold startRunnerInner
  simp only [hbin, if_true]
  cases hp : parseURL s.repo with
  | none =>
    refine ⟨[], by simp, ?_, ?_⟩
    · intro u p hmem
      simp at hmem
    · intro p hmem
      simp at hmem
  | some parts =>
    have h := registerRunner_traceMono labels name net s
    cases hreg : registerRunner labels name net s with
    | mk res s2 =>
      rw [hreg] at h
      rcases h with ⟨ex, hex, hno⟩
      cases res with
      | error e =>
        exact ⟨ex, hex, netOnly_noDownload hno, netOnly_noChmod hno⟩
      | ok reg =>
        refine ⟨ex ++ [Event.spawn (startRunnerCommand (workdir ++ "/gitlab-runner") workdir (parts.scheme ++ ":") parts.host name (jvalTemplate (reg.get "token")) idleTimeout env.inDocker env.gpu (List.foldl (fun acc vol => acc ++ "--docker-volumes " ++ vol ++ " ") "" dockerVolumes) single)], ?_, ?_, ?_⟩
        · have hex2 : s2.trace = s.trace ++ ex := hex
          show s2.trace ++ [Event.spawn (startRunnerCommand (workdir ++ "/gitlab-runner") workdir (parts.scheme ++ ":") parts.host name (jvalTemplate (reg.get "token")) idleTimeout env.inDocker env.gpu (List.foldl (fun acc vol => acc ++ "--docker-volumes " ++ vol ++ " ") "" dockerVolumes) single)] = s.trace ++ (ex ++ [Event.spawn (startRunnerCommand (workdir ++ "/gitlab-runner") workdir (parts.scheme ++ ":") parts.host name (jvalTemplate (reg.get "token")) idleTimeout env.inDocker env.gpu (List.foldl (fun acc vol => acc ++ "--docker-volumes " ++ vol ++ " ") "" dockerVolumes) single)])
          rw [hex2, List.append_assoc]
        · intro u p hmem
          rcases List.mem_append.mp hmem with hmem | hmem
          · exact netOnly_noDownload hno u p hmem
          · simp at hmem
        · intro p hmem
          rcases List.mem_append.mp hmem with hmem | hmem
          · exact netOnly_noChmod hno p hmem
          · simp at hmem

/-- Claim C9: when the runner binary already exists at the working
directory, `startRunner` skips the binary-download step entirely — the event
trace of the run contains neither a download event (so no request to the
binary-download URL) nor an executable-permission change (chmod) event; and
any failure of the setup surfaces as an error whose message identifies the
runner-preparation phase, prefixed with `Failed preparing Gitlab runner: `. -/
theorem claim_C9_startRunner_skip_download (env : FsEnv)
    (workdir idleTimeout name labels : String)
    (single : Bool) (dockerVolumes : List String) (net : Net) (s : St)
    (hbin : env.binExists = true) (htrace : s.trace = []) :
    (∀ u p, Event.download u p ∉ ((startRunner env workdir idleTimeout name labels single dockerVolumes net s).2).trace)
    ∧ (∀ p, Event.chmod p ∉ ((startRunner env workdir idleTimeout name labels single dockerVolumes net s).2).trace)
    ∧ (∀ e, (startRunner env workdir idleTimeout name labels single dockerVolumes net s).1 = .error e →
        ∃ m, e = "Failed preparing Gitlab runner: " ++ m) := by
  obtain ⟨ex, hex, hnd, hnc⟩ := startRunnerInner_noProvision env workdir idleTimeout name labels single dockerVolumes net s hbin
  unfold startRunner
  cases hinner : startRunnerInner env workdir idleTimeout name labels single dockerVolumes net s with
  | mk res s1 =>
    rw [hinner] at hex
    have hex2 : s1.trace = s.trace ++ ex := hex
    cases res with
    | ok hdl =>
      refine ⟨?_, ?_, ?_⟩
      · intro u p hmem
        have hmem2 : Event.download u p ∈ s1.trace := hmem
        rw [hex2, htrace] at hmem2
        simp at hmem2
        exact hnd u p hmem2
      · intro p hmem
        have hmem2 : Event.chmod p ∈ s1.trace := hmem
        rw [hex2, htrace] at hmem2
        simp at hmem2
        exact hnc p hmem2
      · intro e he
        have he2 : (Except.ok hdl : Except String String) = Except.error e := he
        exact Except.noConfusion he2
    | error e0 =>
      refine ⟨?_, ?_, ?_⟩
      · intro u p hmem
        have hmem2 : Event.download u p ∈ s1.trace := hmem
        rw [hex2, htrace] at hmem2
        simp at hmem2
        exact hnd u p hmem2
      · intro p hmem
        have hmem2 : Event.chmod p ∈ s1.trace := hmem
        rw [hex2, htrace] at hmem2
        simp at hmem2
        exact hnc p hmem2
      · intro e he
        have he2 : (Except.error ("Failed preparing Gitlab runner: " ++
            (if e0 == "Forbidden" then
              e0 ++ ", check the permissions (scopes) of your GitLab token.\nSee https://cml.dev/doc/self-hosted-runners?tab=GitLab#personal-access-token"
            else e0)) : Except String String) = Except.error e := he
        injection he2 with h3
        exact ⟨_, h3.symm⟩

/-- Concrete startRunner environment with the binary already present. -/
def fixEnv9 : FsEnv := ⟨false, true, false, false, .ok (), .ok ()⟩

/-- Oracle for runner registration: runner token, then the registration
response. -/
def fixNet9 : Net := fun i _ =>
  if i == 0 then .ok ⟨200, "OK", JVal.obj [("runners_token", JVal.str "rt")]⟩
  else .ok ⟨201, "Created", JVal.obj [("token", JVal.str "regtok")]⟩

theorem claim_C9_witness :
    Event.download "https://gitlab-runner-downloads.s3.amazonaws.com/latest/binaries/gitlab-runner-linux-amd64" "/wd/gitlab-runner"
      ∉ ((startRunner fixEnv9 "/wd" "300" "r1" "cml" true [] fixNet9 fixSt).2).trace
    ∧ Event.chmod "/wd/gitlab-runner"
      ∉ ((startRunner fixEnv9 "/wd" "300" "r1" "cml" true [] fixNet9 fixSt).2).trace :=
  ⟨(claim_C9_startRunner_skip_download fixEnv9 "/wd" "300" "r1" "cml" true [] fixNet9 fixSt
    rfl rfl).1
    "https://gitlab-runner-downloads.s3.amazonaws.com/latest/binaries/gitlab-runner-linux-amd64"
    "/wd/gitlab-runner",
   (claim_C9_startRunner_skip_download fixEnv9 "/wd" "300" "r1" "cml" true [] fixNet9 fixSt
    rfl rfl).2.1 "/wd/gitlab-runner"⟩
